import Mathlib

/-!
Shallow embedding of `src/bibtexconvert.py` (class `ApaConverter`).

Python strings are modelled as Lean `String`s; the handful of Python string
primitives the converter uses (`split`, `strip`, `replace`, `lower`,
`endswith`, the `in` substring test) are re-implemented below over `List Char`
with Python's left-to-right, non-overlapping semantics, restricted to the
ASCII fragment the program manipulates.  Fallible code (`IndexError`,
`AttributeError`, `TypeError`, the explicit `NameError` for an unknown BibTeX
type) is modelled with `Except`.  The converter's single piece of mutable
instance state, `self.location` (Python `False` or a string), is threaded
explicitly as an `Option String` argument and result.
-/

namespace BibTexConvert

/-- Whitespace as used by Python `str.strip` and the regex class `\S`
(ASCII fragment: space, tab, newline, carriage return, vertical tab,
form feed). -/
def pySpace (c : Char) : Bool :=
  c = ' ' || c = '\t' || c = '\n' || c = '\r' || c = '\x0b' || c = '\x0c'

/-- Test whether `needle` occurs at the very start of `hay`. -/
def startsWithL : List Char → List Char → Bool
  | [], _ => true
  | _ :: _, [] => false
  | a :: as, b :: bs => a = b && startsWithL as bs

/-- Python's substring test `needle in hay` over character lists. -/
def containsSubL (needle : List Char) : List Char → Bool
  | [] => needle.isEmpty
  | c :: rest => startsWithL needle (c :: rest) || containsSubL needle rest

/-- Python's substring test `needle in hay` on strings. -/
def containsSub (needle hay : String) : Bool :=
  containsSubL needle.data hay.data

/-- Worker for Python `str.split(sep)` (non-empty separator): scan left to
right; when the separator matches, emit the accumulated segment and skip the
remaining separator characters (tracked by the `Nat` skip counter). -/
def pySplitAux (sep : List Char) : List Char → Nat → List Char → List (List Char)
  | [], _, acc => [acc.reverse]
  | _ :: rest, Nat.succ k, acc => pySplitAux sep rest k acc
  | c :: rest, 0, acc =>
    if startsWithL sep (c :: rest) then
      acc.reverse :: pySplitAux sep rest (sep.length - 1) []
    else
      pySplitAux sep rest 0 (c :: acc)

/-- Python `s.split(sep)` for a non-empty separator (every call site in the
source passes a non-empty literal).  `s.split(sep, 1)[0]` agrees with
`(pySplit s sep).headD ""`, which is how the two `maxsplit=1` call sites are
embedded. -/
def pySplit (s sep : String) : List String :=
  (pySplitAux sep.data s.data 0 []).map (fun l => ⟨l⟩)

/-- Python `s.strip()` over a character list. -/
def pyStripL (l : List Char) : List Char :=
  ((l.dropWhile pySpace).reverse.dropWhile pySpace).reverse

/-- Python `s.strip()`. -/
def pyStrip (s : String) : String := ⟨pyStripL s.data⟩

/-- Worker for Python `s.replace(old, new)` with non-empty `old`:
left-to-right, non-overlapping; replaced characters are skipped via the
`Nat` counter. -/
def pyReplaceAux (old new : List Char) : List Char → Nat → List Char
  | [], _ => []
  | _ :: rest, Nat.succ k => pyReplaceAux old new rest k
  | c :: rest, 0 =>
    if startsWithL old (c :: rest) then
      new ++ pyReplaceAux old new rest (old.length - 1)
    else
      c :: pyReplaceAux old new rest 0

/-- Python `s.replace(old, new)` (every call site passes a non-empty `old`). -/
def pyReplace (s old new : String) : String :=
  ⟨pyReplaceAux old.data new.data s.data 0⟩

/-- Python `s.endswith('.')`. -/
def endsWithDot (s : String) : Bool :=
  match s.data.getLast? with
  | some '.' => true
  | _ => false

/-- The ASCII uppercase-to-lowercase mapping table. -/
def asciiUpperLower : List (Char × Char) :=
  [('A', 'a'), ('B', 'b'), ('C', 'c'), ('D', 'd'), ('E', 'e'), ('F', 'f'),
   ('G', 'g'), ('H', 'h'), ('I', 'i'), ('J', 'j'), ('K', 'k'), ('L', 'l'),
   ('M', 'm'), ('N', 'n'), ('O', 'o'), ('P', 'p'), ('Q', 'q'), ('R', 'r'),
   ('S', 's'), ('T', 't'), ('U', 'u'), ('V', 'v'), ('W', 'w'), ('X', 'x'),
   ('Y', 'y'), ('Z', 'z')]

/-- Python `str.lower` on one character (ASCII fragment: the table phrases and
all comparisons in the source are ASCII). -/
def pyLower (c : Char) : Char :=
  match asciiUpperLower.find? (fun p => p.1 == c) with
  | some p => p.2
  | none => c

/-- Python `s.lower()`. -/
def strLower (s : String) : String := ⟨s.data.map pyLower⟩

/-- Python `s.isdigit()` (ASCII digits): non-empty and all digits. -/
def pyIsDigit (s : String) : Bool :=
  !s.data.isEmpty && s.data.all Char.isDigit

/-- The error taxonomy of `ApaConverter.convert`: the explicit `NameError`
raised for an unknown declared type, and the `IndexError` / `AttributeError` /
`TypeError` exceptions the CPython runtime raises inside the pipeline. -/
inductive BibErr where
  | unknownType
  | indexError
  | attributeError
  | typeError
deriving DecidableEq, Repr

/-- The classification keyword table `self.bibtex_type_list`, as the ordered
association list the Python `dict` literal denotes (insertion order preserved,
the commented-out `conference` row omitted, the double space in the `book` row
kept verbatim). -/
def bibtex_type_list : List (String × String) :=
  [("article", "article, periodical, journal, magazine"),
   ("book", "book, publications,  publication"),
   ("booklet", "book, no publisher"),
   ("inbook", "section, chapter, book"),
   ("incollection", "article, collection"),
   ("inproceedings", "conference, paper"),
   ("manual", "technical, manual"),
   ("masterthesis", "Masters, thesis"),
   ("phdthesis", "PhD, thesis"),
   ("proceedings", "conference, proceedings"),
   ("techreport", "technical, report, government, white paper"),
   ("unpublished", "not published")]

/-- The keys of the classification table (what `bibtex_type in
self.bibtex_type_list` tests membership against). -/
def tableKeys : List String := bibtex_type_list.map Prod.fst

/-- One table row matches when ANY of its comma-split phrases (kept verbatim,
Python does not strip them) occurs in the lowered citation; the Python inner
loop returns on the first matching phrase, which yields the same type as
`any`. -/
def matchesDesc (lowered desc : String) : Bool :=
  (pySplit desc ",").any (fun phrase => containsSub phrase lowered)

/-- The scan of `extract_bibtex_type`: first table row (in declaration order)
with a matching phrase wins; `@misc` when none matches. -/
def scanTypes (lowered : String) : List (String × String) → String
  | [] => "@misc"
  | (ty, desc) :: rest =>
    if matchesDesc lowered desc then "@" ++ ty else scanTypes lowered rest

/-- `ApaConverter.extract_bibtex_type`. -/
def extract_bibtex_type (input_text : String) : String :=
  scanTypes (strLower input_text) bibtex_type_list

/-- Guard of the sentence-splitting regex `(?<=\S\S)(?<!pp)(?<!p)\. ` of
`split_by_period`: the two characters before the period must be non-space and
the one directly before it must not be `p` (which subsumes the `pp`
lookbehind). -/
def splitOkC (p3 p2 : Option Char) : Bool :=
  match p3, p2 with
  | some a, some b => !pySpace a && !pySpace b && !(b = 'p')
  | _, _ => false

/-- Worker for `re.split` with the sentence pattern: a one-character-at-a-time
scan carrying the previous three raw characters `p3 p2 p1` of the input.  A
boundary fires on consuming a space whose predecessor `p1` is the period,
with `p3 p2` satisfying the lookbehind guard; the period (head of `acc`) is
dropped from the emitted segment, matching the delimiter `". "` being
consumed by `re.split`. -/
def sbpAux : Option Char → Option Char → Option Char → List Char → List Char →
    List (List Char)
  | _, _, _, [], acc => [acc.reverse]
  | p3, p2, p1, c :: rest, acc =>
    if c = ' ' ∧ p1 = some '.' ∧ splitOkC p3 p2 = true then
      acc.tail.reverse :: sbpAux p2 p1 (some ' ') rest []
    else
      sbpAux p2 p1 (some c) rest (c :: acc)

/-- `ApaConverter.split_by_period`:
`re.split(r'(?<=\S\S)(?<!pp)(?<!p)\. ', input_text)`. -/
def split_by_period (input_text : String) : List String :=
  (sbpAux none none none input_text.data []).map (fun l => ⟨l⟩)

/-- `ApaConverter.get_title`: `input_text.split(').')[1].split('. ')[0].strip()`,
`IndexError` when there is no `').'`, `None` when the stripped result is
empty. -/
def get_title (input_text : String) : Except BibErr (Option String) :=
  match (pySplit input_text ").").get? 1 with
  | none => Except.error BibErr.indexError
  | some seg =>
    let t := pyStrip ((pySplit seg ". ").headD "")
    if t = "" then Except.ok none else Except.ok (some t)

/-- `ApaConverter.get_booktitle`: the third sentence segment, `IndexError`
when absent. -/
def get_booktitle (input_text : String) : Except BibErr String :=
  match (split_by_period input_text).get? 2 with
  | none => Except.error BibErr.indexError
  | some seg => Except.ok seg

/-- Match of `re.search(r'\((.*?)\)', s)`: the leftmost `(` from which a `)`
is reachable without crossing a newline (the regex `.` does not match `\n`),
returning the characters strictly between them. -/
def grabParen : List Char → Option (List Char)
  | [] => none
  | ')' :: _ => some []
  | '\n' :: _ => none
  | c :: rest => (grabParen rest).map (fun l => c :: l)

/-- Scan for the first position where `\((.*?)\)` matches. -/
def firstParenContent : List Char → Option (List Char)
  | [] => none
  | '(' :: rest =>
    match grabParen rest with
    | some content => some content
    | none => firstParenContent rest
  | _ :: rest => firstParenContent rest

/-- Match of `re.search(r'\d{4}', s)`: the first run of four consecutive
digits. -/
def findFourDigits : List Char → Option (List Char)
  | [] => none
  | c :: rest =>
    let four := (c :: rest).take 4
    if four.length = 4 && four.all Char.isDigit then some four
    else findFourDigits rest

/-- `ApaConverter.get_year`: first 4-digit run inside the first parenthesized
group, `None` otherwise. -/
def get_year (input_text : String) : Option String :=
  match firstParenContent input_text.data with
  | none => none
  | some content => (findFourDigits content).map (fun l => ⟨l⟩)

/-- Body of the author loop of `get_authors`:
`author.strip().replace('& ', '')`, with a period appended when the name does
not already end in one, except for a sole author (`num_authors > 1 or i > 0`
fails only when there is exactly one author and it is the first entry). -/
def fixAuthor (num_authors i : Nat) (author : String) : String :=
  let a := pyReplace (pyStrip author) "& " ""
  if !endsWithDot a && (decide (num_authors > 1) || decide (i > 0)) then
    a ++ "."
  else a

/-- The indexed `for i, author in enumerate(author_names)` loop. -/
def fixAuthors (num_authors : Nat) : Nat → List String → List String
  | _, [] => []
  | i, a :: rest => fixAuthor num_authors i a :: fixAuthors num_authors (i + 1) rest

/-- Python `' and '.join`. -/
def joinAnd : List String → String
  | [] => ""
  | [a] => a
  | a :: rest => a ++ " and " ++ joinAnd rest

/-- `ApaConverter.get_authors`. -/
def get_authors (input_text : String) : String :=
  let string := (split_by_period input_text).headD ""
  let string := (pySplit string " (").headD ""
  let author_names := pySplit string ".,"
  joinAnd (fixAuthors author_names.length 0 author_names)

/-- `ApaConverter.get_publishers`: splits the third sentence segment on `:`;
result is the publisher (stripped, then ALL periods removed by
`.replace('.', '')`) together with the new `self.location` value (`some` of
the stripped pre-colon part, or `none` for Python `False`). -/
def get_publishers (input_text : String) : Except BibErr (String × Option String) :=
  match (split_by_period input_text).get? 2 with
  | none => Except.error BibErr.indexError
  | some string =>
    let location_publisher := pySplit string ":"
    if location_publisher.length > 1 then
      Except.ok (pyReplace (pyStrip (location_publisher.getD 1 "")) "." "",
                 some (pyStrip (location_publisher.headD "")))
    else
      Except.ok (pyReplace (pyStrip (location_publisher.headD "")) "." "", none)

/-- Return shape of `get_journal`: a 1-, 2- or 3-tuple depending on the arity
of the comma split (in Python the 1-part case is a bare `str`). -/
inductive JournalRes where
  | one (j : String)
  | two (j s : String)
  | three (j v p : String)
deriving DecidableEq, Repr

/-- `ApaConverter.get_journal`. -/
def get_journal (input_text : String) : Except BibErr JournalRes :=
  match (split_by_period input_text).get? 2 with
  | none => Except.error BibErr.indexError
  | some seg =>
    let parts := pySplit seg ","
    if parts.length = 3 then
      Except.ok (JournalRes.three (pyStrip (parts.getD 0 ""))
        (pyStrip (parts.getD 1 ""))
        (pyReplace (pyStrip (parts.getD 2 "")) "." ""))
    else if parts.length = 2 then
      Except.ok (JournalRes.two (pyReplace (pyStrip (parts.getD 0 "")) "." "")
        (pyReplace (pyStrip (parts.getD 1 "")) "." ""))
    else
      Except.ok (JournalRes.one (pyReplace (pyStrip (parts.headD "")) "." ""))

/-- `ApaConverter.get_howpublished`: the fourth sentence segment, with the
`IndexError` caught and turned into `None`. -/
def get_howpublished (input_text : String) : Option String :=
  (split_by_period input_text).get? 3

/-- `ApaConverter.remove_non_numeric_chars`: `re.sub(r'[^0-9-]', '', s)`,
then the (semantically inert) hyphen re-join guard, embedded verbatim. -/
def remove_non_numeric_chars (input_string : String) : String :=
  let cleaned : String := ⟨input_string.data.filter (fun c => c.isDigit || c = '-')⟩
  if cleaned.data.contains '-' then
    let parts := pySplit cleaned "-"
    if parts.all pyIsDigit then String.intercalate "-" parts else cleaned
  else cleaned

/-- Character allowed in a URL scheme after the leading letter. -/
def schemeChar (c : Char) : Bool :=
  c.isAlphanum || c = '+' || c = '-' || c = '.'

/-- Modelled from the spec: `urllib.parse.urlparse` is standard-library code
outside `src/`.  Per section 4.8, `is_url` holds exactly when URL parsing
yields both a non-empty scheme (leading letter, then letters, digits, `+`,
`-`, `.`, terminated by `:`) and a non-empty network location (the part after
`//`, up to the next `/`, `?` or `#`). -/
def is_url (input_string : String) : Bool :=
  let d := input_string.data
  let pre := d.takeWhile (fun c => !(c = ':'))
  if pre.length < d.length && !pre.isEmpty &&
      (pre.headD 'a').isAlpha && pre.all schemeChar then
    let rest := d.drop (pre.length + 1)
    if startsWithL ['/', '/'] rest then
      let netloc := (rest.drop 2).takeWhile (fun c => !(c = '/' || c = '?' || c = '#'))
      !netloc.isEmpty
    else false
  else false

/-- Truthiness of `self.location` (`False` or a string; an empty string is
falsy in Python). -/
def truthyLoc : Option String → Bool
  | none => false
  | some l => !(l = "")

/-- The two-value branch of the `@article` assembly (`journal, second =`
unpack): a hyphen routes the numeric-cleaned second value to `pages`,
otherwise it is the `volume`. -/
def articleTwo (journal second : String) : String :=
  if containsSub "-" second then
    let second := remove_non_numeric_chars second
    "journal = \x7b" ++ journal ++ "\x7d, \n pages = \x7b" ++ second ++ "\x7d, \n "
  else
    "journal = \x7b" ++ journal ++ "\x7d, \n volume = \x7b" ++ second ++ "\x7d, \n "

/-- The three-value branch of the `@article` assembly
(`journal, second, third =` unpack). -/
def articleThree (journal second third : String) : String :=
  if containsSub "(" second then
    let contains_page := pySplit second "("
    let volume := contains_page.headD ""
    let number := pyReplace (contains_page.getD 1 "") ")" ""
    let third := pyReplace third "p " ""
    "journal = \x7b" ++ journal ++ "\x7d, \n volume = \x7b" ++ volume ++
      "\x7d, \n number = \x7b" ++ number ++ "\x7d, \n pages = \x7b" ++ third ++ "\x7d, \n"
  else
    "journal = \x7b" ++ journal ++ "\x7d, \n volume = \x7b" ++ second ++
      "\x7d, \n pages = \x7b" ++ third ++ "\x7d, \n"

/-- Dispatch of the `@article` try/except ladder on the shape returned by
`get_journal`.  Python tuple unpacking of a bare `str` of length 2 or 3
(possible in the 1-part case) silently unpacks the string into its
characters; the embedding reproduces that. -/
def articleFrag : JournalRes → String
  | JournalRes.two j s => articleTwo j s
  | JournalRes.three j v p => articleThree j v p
  | JournalRes.one j =>
    match j.data with
    | [a, b] => articleTwo ⟨[a]⟩ ⟨[b]⟩
    | [a, b, c] => articleThree ⟨[a]⟩ ⟨[b]⟩ ⟨[c]⟩
    | _ => "journal = \x7b" ++ j ++ "\x7d, \n"

/-- The `@inproceedings` assembly. -/
def inprocFrag (booktitle : String) : String :=
  if containsSub "(" booktitle then
    let segment := pySplit booktitle "("
    let bt := pyStrip (segment.headD "")
    let pages := remove_non_numeric_chars (pyStrip (segment.getD 1 ""))
    "booktitle = \x7b" ++ bt ++ "\x7d, \n pages = \x7b" ++ pages ++ "\x7d, \n"
  else
    "booktitle = \x7b" ++ booktitle ++ "\x7d, \n"

/-- The `@misc` assembly, with the `"http"` to `"url http"` rewrite for
detected URLs. -/
def miscFrag : Option String → String
  | none => ""
  | some h =>
    if is_url h then
      "howpublished = \x7b" ++ pyReplace h "http" "url http" ++ "\x7d, \n"
    else
      "howpublished = \x7b" ++ h ++ "\x7d, \n"

/-- The `@book` assembly tail and closing brace. -/
def bookTail (publisher : String) (newloc : Option String) : String :=
  let b := "publisher = \x7b" ++ publisher ++ "\x7d, \n "
  if truthyLoc newloc then
    b ++ "location = \x7b" ++ newloc.getD "" ++ "\x7d, \n " ++ "\x7d"
  else
    b ++ "\x7d"

/-- Body of `ApaConverter.convert` after the entry-type resolution: field
extraction, cite-key construction, and type-specific assembly, with the
incoming and outgoing `self.location` threaded explicitly. -/
def convertBody (input_text bibtex_type : String)
    (loc : Option String) : Except BibErr (String × Option String) :=
  let author := get_authors input_text
  match get_title input_text with
    | Except.error e => Except.error e
    | Except.ok title? =>
      let year? := get_year input_text
      let a0 := strLower ((pySplit author ", ").headD "")
      let bibtex_name_author :=
        if (pySplit a0 " ").length > 1 then (pySplit a0 " ").headD "" else a0
      match title? with
      | none => Except.error BibErr.attributeError
      | some title =>
        let bibtex_name_title :=
          if (pySplit title " ").length > 1 then strLower ((pySplit title " ").headD "")
          else strLower title
        match year? with
        | none => Except.error BibErr.typeError
        | some year =>
          let bibtex_name := bibtex_name_author ++ year ++ bibtex_name_title
          let base := bibtex_type ++ "\x7b" ++ bibtex_name ++ ", \n author = \x7b" ++
            author ++ "\x7d, \n title = \x7b" ++ title ++ "\x7d, \n year = " ++ year ++ ", \n "
          if bibtex_type = "@book" then
            match get_publishers input_text with
            | Except.error e => Except.error e
            | Except.ok (publisher, newloc) =>
              Except.ok (base ++ bookTail publisher newloc, newloc)
          else if bibtex_type = "@article" then
            match get_journal input_text with
            | Except.error e => Except.error e
            | Except.ok jr => Except.ok (base ++ articleFrag jr ++ "\x7d", loc)
          else if bibtex_type = "@inproceedings" then
            match get_booktitle input_text with
            | Except.error e => Except.error e
            | Except.ok bt => Except.ok (base ++ inprocFrag bt ++ "\x7d", loc)
          else if bibtex_type = "@misc" then
            Except.ok (base ++ miscFrag (get_howpublished input_text) ++ "\x7d", loc)
          else
            Except.ok (base ++ "\x7d", loc)

/-- `ApaConverter.convert`.  `bibtex_type?` is the optional caller-declared
type; `loc` is the incoming `self.location`; the result pairs the assembled
record with the outgoing `self.location`.  A declared type is validated
against the table keys but NOT prefixed with `@`, exactly as in the source,
so the `== '@book'` (etc.) field dispatch in `convertBody` only ever fires
for classified types. -/
def convert (input_text : String) (bibtex_type? : Option String)
    (loc : Option String) : Except BibErr (String × Option String) :=
  match (match bibtex_type? with
         | none => Except.ok (extract_bibtex_type input_text)
         | some t =>
           if tableKeys.contains t then Except.ok t
           else Except.error BibErr.unknownType : Except BibErr String) with
  | Except.error e => Except.error e
  | Except.ok bibtex_type => convertBody input_text bibtex_type loc

/-!
Claim-side definitions.  Each follows the wording of a spec claim (not the
source) and is compared against the source-derived definitions above.
-/

/-- Follows claim C3's wording: classification by the FIRST table entry, in
declaration order, one of whose comma-split, whitespace-TRIMMED phrases
occurs as a substring of the lowercased citation; `misc` when none matches. -/
def classifyTrimmedC3 (s : String) : String :=
  match bibtex_type_list.find?
      (fun e => (pySplit e.2 ",").any (fun ph => containsSub (pyStrip ph) (strLower s))) with
  | some e => "@" ++ e.1
  | none => "@misc"

/-- Follows the amended claim C3: as `classifyTrimmedC3`, but the comma-split
phrases are kept verbatim (no whitespace trimming), as the source does. -/
def classifyByFirstMatch (s : String) : String :=
  match bibtex_type_list.find? (fun e => matchesDesc (strLower s) e.2) with
  | some e => "@" ++ e.1
  | none => "@misc"

/-- Forced-termination step of claim C6 for the multi-author case: strip,
delete the ampersand markers, then force a trailing period unless one is
already present. -/
def forceDotC6 (author : String) : String :=
  let a := pyReplace (pyStrip author) "& " ""
  if endsWithDot a then a else a ++ "."

/-- Follows claim C6's wording: first sentence segment truncated at the first
`" ("`, split on `".,"`; a sole author is left exactly as trimmed (after
ampersand-marker deletion), every author in a multi-author list gets a forced
trailing period unless already terminated; all joined with `" and "`. -/
def authors_claimC6 (input_text : String) : String :=
  let seg := (split_by_period input_text).headD ""
  let seg := (pySplit seg " (").headD ""
  let names := pySplit seg ".,"
  match names with
  | [a] => pyReplace (pyStrip a) "& " ""
  | l => joinAnd (l.map forceDotC6)

/-- Follows claim C7's wording: strip ONLY a trailing period. -/
def stripTrailingPeriodC7 (s : String) : String :=
  if endsWithDot s then ⟨s.data.dropLast⟩ else s

/-!
Properties of the sentence segmenter for claim C9.
-/

/-- A segment admissible on the left of a boundary: it ends in two non-space
characters, the last of which is not `p`. -/
def endsOkC9 (seg : List Char) : Prop :=
  ∃ t a b, seg = t ++ [a, b] ∧ pySpace a = false ∧ pySpace b = false ∧ ¬ b = 'p'

/-- Every segment standing left of a boundary satisfies `endsOkC9`. -/
def BndC9 : List (List Char) → Prop
  | [] => True
  | [_] => True
  | x :: y :: r => endsOkC9 x ∧ BndC9 (y :: r)

/-- Re-interleave the delimiter `". "` between segments. -/
def joinD : List (List Char) → List Char
  | [] => []
  | [x] => x
  | x :: y :: r => x ++ '.' :: ' ' :: joinD (y :: r)

/-- Loop invariant of `sbpAux`: whenever the previous-character registers hold
non-space characters, they are the most recently accumulated characters (a
space in a register can also be the delimiter space, which is never pushed). -/
def InvC9 (p3 p2 p1 : Option Char) (acc : List Char) : Prop :=
  (∀ x, p1 = some x → ¬ x = ' ' → ∃ t, acc = x :: t) ∧
  (∀ x y, p1 = some y → p2 = some x → ¬ y = ' ' → ¬ x = ' ' →
    ∃ t, acc = y :: x :: t) ∧
  (∀ x y z, p1 = some z → p2 = some y → p3 = some x → ¬ z = ' ' → ¬ y = ' ' →
    ¬ x = ' ' → ∃ t, acc = z :: y :: x :: t)

/-!
Helper lemmas (shared; none of these is a claim's theorem).
-/

theorem ne_space_of_pySpace_false {c : Char} (h : pySpace c = false) : ¬ c = ' ' := by
  intro hc
  subst hc
  simp [pySpace] at h

theorem pyReplaceAux_dot (l : List Char) :
    pyReplaceAux ['.'] [] l 0 = l.filter (fun c => !(c = '.')) := by
  induction l with
  | nil => rfl
  | cons c rest ih =>
    by_cases h : c = '.'
    · subst h
      simp [pyReplaceAux, startsWithL, ih]
    · have h' : ¬ '.' = c := fun hh => h hh.symm
      simp [pyReplaceAux, startsWithL, h, h', ih]

theorem pyReplace_dot (s : String) :
    pyReplace s "." "" = ⟨s.data.filter (fun c => !(c = '.'))⟩ :=
  congrArg String.mk (pyReplaceAux_dot s.data)

theorem get_title_not_unknown (s : String) :
    ¬ get_title s = Except.error BibErr.unknownType := by
  unfold get_title
  split
  · intro h
    injection h with h
    exact BibErr.noConfusion h
  · dsimp only
    split <;> exact fun h => Except.noConfusion h

theorem get_publishers_not_unknown (s : String) :
    ¬ get_publishers s = Except.error BibErr.unknownType := by
  unfold get_publishers
  split
  · intro h
    injection h with h
    exact BibErr.noConfusion h
  · dsimp only
    split <;> exact fun h => Except.noConfusion h

theorem get_journal_not_unknown (s : String) :
    ¬ get_journal s = Except.error BibErr.unknownType := by
  unfold get_journal
  split
  · intro h
    injection h with h
    exact BibErr.noConfusion h
  · dsimp only
    split
    · exact fun h => Except.noConfusion h
    · split <;> exact fun h => Except.noConfusion h

theorem get_booktitle_not_unknown (s : String) :
    ¬ get_booktitle s = Except.error BibErr.unknownType := by
  unfold get_booktitle
  split
  · intro h
    injection h with h
    exact BibErr.noConfusion h
  · exact fun h => Except.noConfusion h

theorem convertBody_not_unknown (s bt : String) (σ : Option String) :
    ¬ convertBody s bt σ = Except.error BibErr.unknownType := by
  intro h
  simp only [convertBody] at h
  repeat' split at h
  all_goals first
    | exact Except.noConfusion h
    | (injection h with h
       first
         | exact BibErr.noConfusion h
         | (subst h
            first
              | exact get_title_not_unknown _ (by assumption)
              | exact get_publishers_not_unknown _ (by assumption)
              | exact get_journal_not_unknown _ (by assumption)
              | exact get_booktitle_not_unknown _ (by assumption)))

/-!
Claim theorems.
-/

/-- C1 (amended): `convert` with a caller-declared type fails with the
`UnknownType` error exactly when the declared type is not a key of the
recognized classification table.  Since `misc` is not a key of the table, it
is NOT implicitly valid: `convert(text, "misc")` fails with `UnknownType`
just as `convert(text, "journalpaper")` does. -/
theorem spec_C1_unknownType_iff (s t : String) (σ : Option String) :
    convert s (some t) σ = Except.error BibErr.unknownType ↔
      tableKeys.contains t = false := by
  constructor
  · intro h
    by_contra hc
    rw [Bool.not_eq_false] at hc
    have hcv : convert s (some t) σ = convertBody s t σ := by
      unfold convert
      dsimp only
      rw [hc]
      rfl
    exact convertBody_not_unknown s t σ (hcv ▸ h)
  · intro h
    unfold convert
    dsimp only
    rw [h]
    rfl

/-- C1 witness: the two concrete calls named by the claim, driven through
`spec_C1_unknownType_iff`; both the unknown `journalpaper` and the
table-absent `misc` produce the `UnknownType` error. -/
theorem spec_C1_witness :
    convert "Smith, J. (2020). A great study. Journal of Things, 5, 100-110."
        (some "journalpaper") none = Except.error BibErr.unknownType ∧
    convert "Smith, J. (2020). A great study. Journal of Things, 5, 100-110."
        (some "misc") none = Except.error BibErr.unknownType :=
  ⟨(spec_C1_unknownType_iff _ "journalpaper" none).mpr rfl,
   (spec_C1_unknownType_iff _ "misc" none).mpr rfl⟩

/-- C1 counterexample: the claim asserts `convert(text, "misc")` does not
fail, but `misc` is not a key of `bibtex_type_list`, so the call raises the
`UnknownType` error. -/
theorem spec_C1_counterexample :
    tableKeys.contains "misc" = false ∧
    convert "Smith, J. (2020). A great study. Journal of Things, 5, 100-110."
        (some "misc") none = Except.error BibErr.unknownType := ⟨rfl, rfl⟩

/-- C2: evaluating `convert` at the failing input of the code bug.  A
declared `book` type passes validation but is never prefixed with `@`, so
the `== '@book'` dispatch cannot fire: the record starts with `book{`, gets
no `publisher` (or `location`) field, and ends right after `year` — while
the very same citation, classified instead of declared, does receive the
bespoke `@book` fields. -/
theorem spec_C2_declared_type_bug :
    convert "Smith, J. (2020). A book. London: Acme." (some "book") none =
      Except.ok ("book\x7bsmith2020a, \n author = \x7bSmith, J.\x7d, \n title = \x7bA book\x7d, \n year = 2020, \n \x7d",
        none) ∧
    containsSub "publisher"
      "book\x7bsmith2020a, \n author = \x7bSmith, J.\x7d, \n title = \x7bA book\x7d, \n year = 2020, \n \x7d" = false ∧
    convert "Smith, J. (2020). A book. London: Acme." none none =
      Except.ok ("@book\x7bsmith2020a, \n author = \x7bSmith, J.\x7d, \n title = \x7bA book\x7d, \n year = 2020, \n publisher = \x7bAcme\x7d, \n location = \x7bLondon\x7d, \n \x7d",
        some "London") := ⟨rfl, rfl, rfl⟩

/-- C4 (amended): `convert` does NOT tolerate an absent title or year.  When
the title extractor succeeds structurally but yields the absent marker,
`convert` fails with the `AttributeError` of `None.split`; when the title is
present but the year extractor yields the absent marker, `convert` fails
with the `TypeError` of joining `None` into the cite key. -/
theorem spec_C4_absent_marker_errors (s : String) (σ : Option String) :
    (get_title s = Except.ok none →
      convert s none σ = Except.error BibErr.attributeError) ∧
    (∀ t, get_title s = Except.ok (some t) → get_year s = none →
      convert s none σ = Except.error BibErr.typeError) := by
  constructor
  · intro h
    simp [convert, convertBody, h]
  · intro t h hy
    simp [convert, convertBody, h, hy]

/-- C4 witness: concrete citations exercising both error paths of
`spec_C4_absent_marker_errors`. -/
theorem spec_C4_witness :
    (get_title "Smith ().  . x" = Except.ok none ∧
      convert "Smith ().  . x" none none = Except.error BibErr.attributeError) ∧
    (get_title "Smith, J. (n.d.). A study." = Except.ok (some "A study.") ∧
      get_year "Smith, J. (n.d.). A study." = none ∧
      convert "Smith, J. (n.d.). A study." none none = Except.error BibErr.typeError) :=
  ⟨⟨rfl, (spec_C4_absent_marker_errors "Smith ().  . x" none).1 rfl⟩,
   ⟨rfl, rfl,
    (spec_C4_absent_marker_errors "Smith, J. (n.d.). A study." none).2 "A study." rfl rfl⟩⟩

/-- C4 counterexample: a citation whose title extraction succeeds (no
structural error) but whose year is absent; `convert` raises rather than
returning an assembled record with the absent marker rendered. -/
theorem spec_C4_counterexample :
    get_title "Smith, J. (n.d.). A study." = Except.ok (some "A study.") ∧
    get_year "Smith, J. (n.d.). A study." = none ∧
    convert "Smith, J. (n.d.). A study." none none = Except.error BibErr.typeError :=
  ⟨rfl, rfl, rfl⟩

/-- C5 (amended): the end-to-end example classifies as `article`, produces
cite key `smith2020a`, and emits `journal = {Journal of Things}`,
`volume = {5}` and `pages = {100-110}`: the comma split of the third segment
has three parts, so the THIRD value `100-110` is routed to `pages` by the
three-part branch (and `5`, the second value, to `volume`); the hyphen rule
for two-part splits plays no role here. -/
theorem spec_C5_end_to_end :
    extract_bibtex_type
      "Smith, J. (2020). A great study. Journal of Things, 5, 100-110." = "@article" ∧
    convert "Smith, J. (2020). A great study. Journal of Things, 5, 100-110." none none =
      Except.ok ("@article\x7bsmith2020a, \n author = \x7bSmith, J.\x7d, \n title = \x7bA great study\x7d, \n year = 2020, \n journal = \x7bJournal of Things\x7d, \n volume = \x7b5\x7d, \n pages = \x7b100-110\x7d, \n\x7d",
        none) := ⟨rfl, rfl⟩

/-- C5 counterexample: the claim's mechanism is wrong — the journal split of
this citation is three-way, its SECOND value is `5`, which contains no
hyphen (so no hyphen-driven routing of the second value to `pages` occurs),
and the emitted record carries `volume = {5}` alongside `pages`. -/
theorem spec_C5_counterexample :
    get_journal "Smith, J. (2020). A great study. Journal of Things, 5, 100-110." =
      Except.ok (JournalRes.three "Journal of Things" "5" "100-110") ∧
    containsSub "-" "5" = false ∧
    containsSub "volume = \x7b5\x7d"
      "@article\x7bsmith2020a, \n author = \x7bSmith, J.\x7d, \n title = \x7bA great study\x7d, \n year = 2020, \n journal = \x7bJournal of Things\x7d, \n volume = \x7b5\x7d, \n pages = \x7b100-110\x7d, \n\x7d" = true :=
  ⟨rfl, rfl, rfl⟩

/-- C7 (amended): on a citation with at least three sentence segments, the
publisher extractor splits the third segment on `:`; with a colon present it
records the trimmed pre-colon part as the location state and returns the
first post-colon chunk trimmed with ALL periods removed (not merely a
trailing one); with no colon it returns the whole segment trimmed with all
periods removed and clears the location state to the unset marker. -/
theorem spec_C7_publisher_extraction (s seg : String)
    (h : (split_by_period s).get? 2 = some seg) :
    (1 < (pySplit seg ":").length →
      get_publishers s = Except.ok
        (⟨(pyStrip ((pySplit seg ":").getD 1 "")).data.filter (fun c => !(c = '.'))⟩,
         some (pyStrip ((pySplit seg ":").headD "")))) ∧
    ((pySplit seg ":").length ≤ 1 →
      get_publishers s = Except.ok
        (⟨(pyStrip ((pySplit seg ":").headD "")).data.filter (fun c => !(c = '.'))⟩,
         none)) := by
  constructor
  · intro hlen
    simp only [get_publishers, h]
    rw [if_pos hlen]
    rw [pyReplace_dot]
  · intro hlen
    simp only [get_publishers, h]
    rw [if_neg (by omega)]
    rw [pyReplace_dot]

/-- C7 witness: `spec_C7_publisher_extraction` applied to a concrete
citation whose third segment is `Pub: A. B`; the location becomes `Pub` and
the publisher `A B`. -/
theorem spec_C7_witness :
    (split_by_period "Aa, B. (2020). Title. Pub: A. B").get? 2 = some "Pub: A. B" ∧
    get_publishers "Aa, B. (2020). Title. Pub: A. B" = Except.ok ("A B", some "Pub") := by
  refine ⟨rfl, ?_⟩
  have h :=
    (spec_C7_publisher_extraction "Aa, B. (2020). Title. Pub: A. B" "Pub: A. B" rfl).1
      (by decide)
  exact h

/-- C7 counterexample: on a post-colon publisher `A. B` the code removes the
interior period (`A B`), whereas the claim's trailing-period-only stripping
would leave `A. B` intact. -/
theorem spec_C7_counterexample :
    get_publishers "Aa, B. (2020). Title. Pub: A. B" = Except.ok ("A B", some "Pub") ∧
    stripTrailingPeriodC7 (pyStrip " A. B") = "A. B" ∧
    ("A B" : String) ≠ "A. B" := ⟨rfl, rfl, by decide⟩

theorem scanTypes_eq_find (lowered : String) (l : List (String × String)) :
    scanTypes lowered l =
      (match l.find? (fun e => matchesDesc lowered e.2) with
       | some e => "@" ++ e.1
       | none => "@misc") := by
  induction l with
  | nil => rfl
  | cons x rest ih =>
    obtain ⟨ty, desc⟩ := x
    by_cases h : matchesDesc lowered desc = true
    · simp [scanTypes, List.find?_cons, h]
    · simp only [Bool.not_eq_true] at h
      simp [scanTypes, List.find?_cons, h, ih]

/-- C3 (amended): classification lower-cases the citation and returns the
first table entry, in declaration order, one of whose comma-split phrases —
kept VERBATIM, with their leading whitespace, not trimmed — occurs as a
substring; `misc` when no phrase of any entry matches; it never fails
(`extract_bibtex_type` is a total function). -/
theorem spec_C3_first_match (s : String) :
    extract_bibtex_type s = classifyByFirstMatch s :=
  scanTypes_eq_find (strLower s) bibtex_type_list

/-- C3 counterexample: on the citation `journal` the trimmed-phrase
classifier of the claim returns `article` (trimmed phrase `journal`
matches), but the code, whose phrase is the untrimmed `" journal"`, finds no
match and returns `misc`. -/
theorem spec_C3_counterexample :
    extract_bibtex_type "journal" = "@misc" ∧
    classifyTrimmedC3 "journal" = "@article" ∧
    ("@misc" : String) ≠ "@article" := ⟨rfl, rfl, by decide⟩

theorem fixAuthors_force (num : Nat) (hnum : 1 < num) :
    ∀ (l : List String) (i : Nat), fixAuthors num i l = l.map forceDotC6 := by
  intro l
  induction l with
  | nil => intro i; rfl
  | cons a rest ih =>
    intro i
    have hda : fixAuthor num i a = forceDotC6 a := by
      unfold fixAuthor forceDotC6
      have : decide (num > 1) = true := by simpa using hnum
      rw [this]
      cases h : endsWithDot (pyReplace (pyStrip a) "& " "") <;> simp [h]
    simp [fixAuthors, hda, ih]

theorem authorsLoop_eq_claim (names : List String) :
    joinAnd (fixAuthors names.length 0 names) =
      (match names with
       | [a] => pyReplace (pyStrip a) "& " ""
       | l => joinAnd (l.map forceDotC6)) := by
  match names with
  | [] => rfl
  | [a] => simp [fixAuthors, fixAuthor, joinAnd]
  | a :: b :: rest =>
    have h := fixAuthors_force (a :: b :: rest).length (by simp) (a :: b :: rest) 0
    dsimp only
    rw [h]

/-- C6: the author extractor is exactly the procedure the claim describes —
first sentence segment truncated at the first `" ("`, split on `".,"`, each
name stripped and its `"& "` markers deleted, a trailing period forced on
every name of a multi-author list that lacks one while a sole author is left
as trimmed, all joined with `" and "` — and on the claim's example it
returns `Smith, J. and Jones, A.`.  Totality holds by construction
(`get_authors` is a total function). -/
theorem spec_C6_author_extraction :
    (∀ s, get_authors s = authors_claimC6 s) ∧
    get_authors "Smith, J., & Jones, A. (2020)." = "Smith, J. and Jones, A." := by
  constructor
  · intro s
    simp only [get_authors, authors_claimC6]
    exact authorsLoop_eq_claim _
  · rfl

/-- C8: the output of `convert` does not depend on the incoming transient
`location` state at all — the `@book` branch overwrites it via the publisher
extractor before reading it, and no other branch consults it.  In
particular, two runs on the same citation and declared type from a reset
state (or from any two states) return identical output strings. -/
theorem spec_C8_two_run_determinism (s : String) (bt? : Option String)
    (σ₁ σ₂ : Option String) :
    (convert s bt? σ₁).map Prod.fst = (convert s bt? σ₂).map Prod.fst := by
  unfold convert
  split
  · rfl
  · simp only [convertBody]
    repeat' split
    all_goals rfl

theorem sbp_ne_nil (cur : List Char) :
    ∀ p3 p2 p1 acc, sbpAux p3 p2 p1 cur acc ≠ [] := by
  induction cur with
  | nil =>
    intro p3 p2 p1 acc
    simp [sbpAux]
  | cons c rest ih =>
    intro p3 p2 p1 acc
    unfold sbpAux
    split
    · simp
    · exact ih _ _ _ _

theorem sbp_main (cur : List Char) :
    ∀ p3 p2 p1 acc, InvC9 p3 p2 p1 acc →
      joinD (sbpAux p3 p2 p1 cur acc) = acc.reverse ++ cur ∧
      BndC9 (sbpAux p3 p2 p1 cur acc) := by
  induction cur with
  | nil =>
    intro p3 p2 p1 acc _
    constructor
    · simp [sbpAux, joinD]
    · simp only [sbpAux, BndC9]
  | cons c rest ih =>
    intro p3 p2 p1 acc hInv
    unfold sbpAux
    split
    · rename_i hc
      obtain ⟨hc1, hc2, hc3⟩ := hc
      subst hc1
      subst hc2
      cases p3 with
      | none => simp [splitOkC] at hc3
      | some a =>
        cases p2 with
        | none => simp [splitOkC] at hc3
        | some b =>
          simp only [splitOkC, Bool.and_eq_true, Bool.not_eq_true'] at hc3
          obtain ⟨⟨ha, hb⟩, hbp⟩ := hc3
          have hbp' : ¬ b = 'p' := by simpa using hbp
          obtain ⟨t, hacc⟩ :=
            hInv.2.2 a b '.' rfl rfl rfl (by decide)
              (ne_space_of_pySpace_false hb) (ne_space_of_pySpace_false ha)
          have hInv' : InvC9 (some b) (some '.') (some ' ') [] := by
            refine ⟨?_, ?_, ?_⟩
            · intro x hx hne
              injection hx with hx
              exact absurd hx.symm hne
            · intro x y hy _ hne _
              injection hy with hy
              exact absurd hy.symm hne
            · intro x y z hz _ _ hne _ _
              injection hz with hz
              exact absurd hz.symm hne
          obtain ⟨ihJ, ihB⟩ := ih (some b) (some '.') (some ' ') [] hInv'
          obtain ⟨yseg, rsegs, hS⟩ :
              ∃ yseg rsegs, sbpAux (some b) (some '.') (some ' ') rest [] = yseg :: rsegs := by
            cases hS : sbpAux (some b) (some '.') (some ' ') rest [] with
            | nil => exact absurd hS (sbp_ne_nil rest _ _ _ _)
            | cons yseg rsegs => exact ⟨yseg, rsegs, rfl⟩
          rw [hS] at ihJ ihB ⊢
          constructor
          · simp only [joinD]
            rw [ihJ, hacc]
            simp
          · refine ⟨?_, ihB⟩
            refine ⟨t.reverse, a, b, ?_, ha, hb, hbp'⟩
            rw [hacc]
            simp
    · rename_i hc
      obtain ⟨h1, h2, h3⟩ := hInv
      have hInv' : InvC9 p2 p1 (some c) (c :: acc) := by
        refine ⟨?_, ?_, ?_⟩
        · intro x hx _
          injection hx with hx
          exact ⟨acc, by rw [hx]⟩
        · intro x y hy hx hyne hxne
          injection hy with hy
          obtain ⟨t, ht⟩ := h1 x hx hxne
          exact ⟨t, by rw [hy, ht]⟩
        · intro x y z hz hy hx hzne hyne hxne
          injection hz with hz
          obtain ⟨t, ht⟩ := h2 x y hy hx hyne hxne
          exact ⟨t, by rw [hz, ht]⟩
      obtain ⟨ihJ, ihB⟩ := ih p2 p1 (some c) (c :: acc) hInv'
      refine ⟨?_, ihB⟩
      rw [ihJ]
      simp

/-- C9: the sentence segmenter reconstructs the input when its segments are
re-joined with `". "`, and every segment standing left of a boundary ends in
two non-space characters the last of which is not `p` — so the segmenter
never splits at a period preceded by `p` or by fewer than two consecutive
non-space characters.  Consequently a sentence ending in a `p`-final word
(`A study of sleep. More`) and a single-letter initial (`J. `) produce no
boundary, while a well-formed boundary (`). `) does. -/
theorem spec_C9_segment_boundaries :
    (∀ s : String,
      joinD (sbpAux none none none s.data []) = s.data ∧
      BndC9 (sbpAux none none none s.data [])) ∧
    split_by_period "A study of sleep. More" = ["A study of sleep. More"] ∧
    split_by_period "Smith, J. Jones (2020). X" = ["Smith, J. Jones (2020)", "X"] := by
  refine ⟨?_, rfl, rfl⟩
  intro s
  have hInv : InvC9 none none none [] := by
    refine ⟨?_, ?_, ?_⟩
    · intro x hx
      exact absurd hx (by simp)
    · intro x y hy
      exact absurd hy (by simp)
    · intro x y z hz
      exact absurd hz (by simp)
  simpa using sbp_main s.data none none none [] hInv

theorem pyLower_ne_P (c : Char) : ¬ pyLower c = 'P' := by
  intro h
  unfold pyLower at h
  cases hf : asciiUpperLower.find? (fun p => p.1 == c) with
  | none =>
    rw [hf] at h
    dsimp only at h
    have hc := List.find?_eq_none.mp hf ('P', 'p') (by decide)
    rw [h] at hc
    exact hc (by decide)
  | some p =>
    rw [hf] at h
    dsimp only at h
    have hmem := List.mem_of_find?_eq_some hf
    fin_cases hmem <;> exact absurd h (by decide)

theorem containsSub_PhD_lower (l : List Char) :
    containsSubL ['P', 'h', 'D'] (l.map pyLower) = false := by
  induction l with
  | nil => rfl
  | cons c rest ih =>
    have hP : ¬ 'P' = pyLower c := fun h => pyLower_ne_P c h.symm
    simp [containsSubL, startsWithL, hP, ih]

/-- C10: classification can never return `phdthesis` — the case-sensitive
phrases `PhD` and `Masters` can never occur in the lowercased citation, and
the shared untrimmed phrase `" thesis"` is always claimed first by the
earlier `masterthesis` row; a concrete thesis-like citation indeed
classifies as `masterthesis`. -/
theorem spec_C10_no_phdthesis :
    (∀ s, (extract_bibtex_type s == "@phdthesis") = false) ∧
    extract_bibtex_type "a thesis about x" = "@masterthesis" := by
  constructor
  · intro s
    rw [beq_eq_false_iff_ne]
    intro h
    unfold extract_bibtex_type bibtex_type_list at h
    rw [scanTypes] at h
    by_cases m1 : matchesDesc (strLower s) "article, periodical, journal, magazine" = true
    · rw [if_pos m1] at h
      exact absurd h (by decide)
    rw [if_neg m1, scanTypes] at h
    by_cases m2 : matchesDesc (strLower s) "book, publications,  publication" = true
    · rw [if_pos m2] at h
      exact absurd h (by decide)
    rw [if_neg m2, scanTypes] at h
    by_cases m3 : matchesDesc (strLower s) "book, no publisher" = true
    · rw [if_pos m3] at h
      exact absurd h (by decide)
    rw [if_neg m3, scanTypes] at h
    by_cases m4 : matchesDesc (strLower s) "section, chapter, book" = true
    · rw [if_pos m4] at h
      exact absurd h (by decide)
    rw [if_neg m4, scanTypes] at h
    by_cases m5 : matchesDesc (strLower s) "article, collection" = true
    · rw [if_pos m5] at h
      exact absurd h (by decide)
    rw [if_neg m5, scanTypes] at h
    by_cases m6 : matchesDesc (strLower s) "conference, paper" = true
    · rw [if_pos m6] at h
      exact absurd h (by decide)
    rw [if_neg m6, scanTypes] at h
    by_cases m7 : matchesDesc (strLower s) "technical, manual" = true
    · rw [if_pos m7] at h
      exact absurd h (by decide)
    rw [if_neg m7, scanTypes] at h
    by_cases hm : matchesDesc (strLower s) "Masters, thesis" = true
    · rw [if_pos hm] at h
      exact absurd h (by decide)
    rw [if_neg hm, scanTypes] at h
    by_cases hp : matchesDesc (strLower s) "PhD, thesis" = true
    · have e1 : pySplit "PhD, thesis" "," = ["PhD", " thesis"] := rfl
      simp only [matchesDesc, e1, List.any_cons, List.any_nil, Bool.or_false,
        Bool.or_eq_true] at hp
      have e2 : pySplit "Masters, thesis" "," = ["Masters", " thesis"] := rfl
      simp only [matchesDesc, e2, List.any_cons, List.any_nil, Bool.or_false,
        Bool.or_eq_true] at hm
      push_neg at hm
      rcases hp with hp | hp
      · have h2 : containsSub "PhD" (strLower s) = false := containsSub_PhD_lower s.data
        rw [hp] at h2
        exact absurd h2 (by decide)
      · exact hm.2 hp
    rw [if_neg hp, scanTypes] at h
    by_cases m10 : matchesDesc (strLower s) "conference, proceedings" = true
    · rw [if_pos m10] at h
      exact absurd h (by decide)
    rw [if_neg m10, scanTypes] at h
    by_cases m11 : matchesDesc (strLower s) "technical, report, government, white paper" = true
    · rw [if_pos m11] at h
      exact absurd h (by decide)
    rw [if_neg m11, scanTypes] at h
    by_cases m12 : matchesDesc (strLower s) "not published" = true
    · rw [if_pos m12] at h
      exact absurd h (by decide)
    rw [if_neg m12, scanTypes] at h
    exact absurd h (by decide)
  · rfl

/-- C10 witness: `spec_C10_no_phdthesis` applied at a concrete thesis-like
citation. -/
theorem spec_C10_witness :
    (extract_bibtex_type "a thesis about x" == "@phdthesis") = false :=
  spec_C10_no_phdthesis.1 "a thesis about x"

end BibTexConvert
